import Mathlib

/-!
Verification of the wazuh repository slice: the `string_greater` helper of the
engine's operation-builder subsystem, and the message-queue sender `SendMSG`
of `src/shared/mq_op.c`.

The engine implementation of the helper (`opBuilderHelperFilter.cpp`) is not
present in the source tree; only its unit test
(`opBuilderHelperStringGreaterThan_test.cpp`) and the mock definitions
provider (`failDef.hpp`) are.  The definitions in the first part are therefore
modelled from the specification (data model §3, components §4, interfaces §6),
with the unit test used to fix concrete behaviours.  `SendMSG` is embedded
directly from `src/shared/mq_op.c`.
-/

/-! ## Part A: structured events and the string_greater helper -/

/-- Modelled from the spec: the structured event document (§3 Event): a nested
key/value tree with typed leaf values (string, number, boolean, null); array
semantics are out of scope for the helper family demonstrated (§4.3). -/
inductive Value where
  | vNull : Value
  | vBool (b : Bool) : Value
  | vNum (n : Int) : Value
  | vStr (s : String) : Value
  | vObj (fields : List (String × Value)) : Value

/-- An Event is a structured document (spec §3). -/
abbrev Event := Value

/-- Look a key up in an object's field list (first match wins). -/
def getKey (fields : List (String × Value)) (key : String) : Option Value :=
  match fields with
  | [] => none
  | (k, v) :: rest => if k = key then some v else getKey rest key

/-- Modelled from the spec: the Path Accessor (§4.3): navigate a multi-level
field path into the structured event, returning the leaf value or an absence
signal; case-sensitive segment matching, arbitrary nesting depth, object
nesting only. -/
def readPath (event : Value) (path : List String) : Option Value :=
  match path with
  | [] => some event
  | seg :: rest =>
    match event with
    | .vObj fields =>
      match getKey fields seg with
      | some child => readPath child rest
      | none => none
    | _ => none

/-- Modelled from the spec: an Operand (§3): tagged union, Literal text used
verbatim or a Reference path resolved against the current event. -/
inductive Operand where
  | literal (s : String) : Operand
  | reference (path : List String) : Operand

/-- Modelled from the spec: the build-time (structural) error class (§7). -/
inductive BuildError where
  | invalidPath : BuildError
  | arityError : BuildError
  | invalidReference : BuildError

/-- Split a list of characters at every occurrence of `sep` (the semantics of
`String.splitOn` with a one-character separator, as structural recursion). -/
def splitSegs (sep : Char) : List Char → List (List Char)
  | [] => [[]]
  | c :: rest =>
    if c = sep then [] :: splitSegs sep rest
    else
      match splitSegs sep rest with
      | [] => [[c]]
      | seg :: segs => (c :: seg) :: segs

/-- Modelled from the spec: `classify` of the Operand Resolver (§4.2, §6): an
argument beginning with the sigil `$` is a Reference whose remainder is a
dot-separated path; empty text after stripping the sigil is a build-time
`InvalidReference` error; any other text is a Literal used verbatim. -/
def classify (argText : String) : Except BuildError Operand :=
  match argText.data with
  | ['$'] => .error .invalidReference
  | '$' :: rest => .ok (.reference ((splitSegs '.' rest).map fun l => String.mk l))
  | _ => .ok (.literal argText)

/-- Modelled from the spec: the field-path syntax (§3 FieldPath, §6):
`/`-separated absolute path of non-empty segments; the empty path is
invalid. -/
def parsePath (s : String) : Option (List String) :=
  match s.data with
  | '/' :: rest =>
    let segs := splitSegs '/' rest
    if segs.all (fun seg => !seg.isEmpty) then some (segs.map fun l => String.mk l)
    else none
  | _ => none

/-- Modelled from the spec: the Definitions Provider contract (§4.1, §6):
`contains` is total; `get` fails with LookupError (here `none`) if absent. -/
structure DefsProvider where
  contains : String → Bool
  get : String → Option Value

/-- The fault-injecting provider `defs::mocks::FailDef` of
`src/engine/source/defs/mocks/defs/failDef.hpp`: `contains` always answers
`false` and `get` always throws (here: `none`). -/
def FailDef : DefsProvider :=
  { contains := fun _ => false, get := fun _ => none }

/-- Modelled from the spec: an Operation Term (§3): immutable value holding
the target FieldPath, the classified Operand, and the helper name for
diagnostics. -/
structure OpTerm where
  targetPath : List String
  operand : Operand
  helperName : String

/-- Modelled from the spec: the per-event Result (§3): success flag, the
(unchanged) event, and an optional trace explaining a failure. -/
structure Result where
  success : Bool
  event : Value
  trace : Option String

/-- Byte-wise lexicographic strict-greater on character lists.  For UTF-8
encoded strings, byte-wise order on the encodings coincides with this
code-point lexicographic order. -/
def lexGtChars : List Char → List Char → Bool
  | [], _ => false
  | _ :: _, [] => true
  | a :: as, b :: bs =>
    if b < a then true
    else if a < b then false
    else lexGtChars as bs

/-- Strict byte-wise lexicographic comparison on strings (spec §4.4: byte-wise
lexicographic order for strings). -/
def strGreater (a b : String) : Bool :=
  lexGtChars a.data b.data

/-- Modelled from the spec: `resolve` of the Operand Resolver (§4.2): Literal
operands resolve to themselves unconditionally; Reference paths are resolved
against the current event, failing when absent. -/
def resolveOperand (op : Operand) (event : Value) : Option Value :=
  match op with
  | .literal s => some (.vStr s)
  | .reference p => readPath event p

/-- Modelled from the spec: evaluation of the ordered-comparison helper over
strings (§4.4): read the target field, resolve the operand; a failed read or
a non-string value is a per-event failure carrying a trace; otherwise succeed
iff the target strictly exceeds the operand byte-wise. -/
def evalStringGreater (targetPath : List String) (op : Operand) (event : Value) : Result :=
  match readPath event targetPath with
  | none => { success := false, event := event, trace := some "target field not found" }
  | some (.vStr a) =>
    match resolveOperand op event with
    | none => { success := false, event := event, trace := some "reference not found" }
    | some (.vStr b) =>
      if strGreater a b then { success := true, event := event, trace := none }
      else { success := false, event := event, trace := some "comparison failure" }
    | some _ => { success := false, event := event, trace := some "reference is not a string" }
  | some _ => { success := false, event := event, trace := some "target is not a string" }

/-- Modelled from the spec: the builder `opBuilderHelperStringGreaterThan`
(§4.4, §6 builder invocation contract): validate the target path and the
single argument, classify it, and produce the immutable Operation Term; the
definitions provider is consulted lazily (never `get` without `contains`),
so construction does not depend on it. -/
def opBuilderHelperStringGreaterThan (targetField : String) (helperName : String)
    (args : List String) (_defsProv : DefsProvider) : Except BuildError OpTerm :=
  match parsePath targetField with
  | none => .error .invalidPath
  | some path =>
    match args with
    | [arg] =>
      match classify arg with
      | .error e => .error e
      | .ok op => .ok { targetPath := path, operand := op, helperName := helperName }
    | _ => .error .arityError

/-- Evaluate a built term on one event (spec §4.5 evaluation contract). -/
def evalTerm (t : OpTerm) (event : Value) : Result :=
  evalStringGreater t.targetPath t.operand event

/-! ## Part B: SendMSG of src/shared/mq_op.c

The sender is embedded up to (and including) the construction of the buffer
handed to the first `OS_SendUnix` call: the claims under scrutiny concern the
early returns that happen before any send, and the contents of the buffer when
a send is attempted.  C strings are `List Char` with the convention that
reading past the end yields the NUL terminator.  `OS_MAXSTR` and `SECURE_MQ`
come from headers not in the tree; their exact values are immaterial to the
claims (only `OS_MAXSTR`'s size and `loc = SECURE_MQ`'s outcome matter). -/

def OS_MAXSTR : Nat := 65536

def SECURE_MQ : Char := 's'

/-- The NUL byte. -/
def NUL : Char := Char.ofNat 0

/-- Read index `i` of a NUL-terminated C string: past the end yields NUL. -/
def cstrGet (s : List Char) (i : Nat) : Char :=
  s.getD i NUL

/-- What a call to `SendMSG` does: return a code without ever calling
`OS_SendUnix`, or hand a buffer to `OS_SendUnix` (the subsequent retry loop
and its return code depend on the socket and are outside the claims). -/
inductive SendAction where
  | ret (code : Int) : SendAction
  | send (buf : List Char) : SendAction

/-- `snprintf(buf, size, ...)` producing the character sequence `s`: at most
`size - 1` characters are written, followed by a terminating NUL; the rest of
the buffer is untouched. -/
def snprintfWrite (buf : List Char) (size : Nat) (s : List Char) : List Char :=
  let w := s.take (size - 1)
  w ++ NUL :: buf.drop (w.length + 1)

/-- `SendMSG(queue, message, locmsg, loc)` of `src/shared/mq_op.c:59-141`,
embedded up to the first `OS_SendUnix` call.  `tmpstr` is a stack buffer of
`OS_MAXSTR + 1` characters whose initial (uninitialized) contents are the
parameter `init`; line 64 pre-sets index `OS_MAXSTR` to NUL.  The `os_wait`
global-lock check and the `merror` log lines have no effect on the returned
action and are omitted. -/
def SendMSG (queue : Int) (message : List Char) (locmsg : List Char) (loc : Char)
    (init : List Char) : SendAction :=
  let tmpstr0 := init.set OS_MAXSTR NUL
  if loc = SECURE_MQ then
    -- loc = message[0]; message++;
    let loc2 := cstrGet message 0
    -- if (message[0] != ':') { merror(FORMAT_ERROR); return 0; }
    if cstrGet message 1 ≠ ':' then .ret 0
    else
      -- message++; now pointing to the location
      let message2 := message.drop 2
      -- if (strncmp(message, "keepalive", 9) == 0) return 0;
      if message2.take 9 = "keepalive".data then .ret 0
      else
        let tmpstr := snprintfWrite tmpstr0 OS_MAXSTR
          (loc2 :: ':' :: locmsg ++ '-' :: '>' :: message2)
        -- if (queue < 0) return -1;
        if queue < 0 then .ret (-1) else .send tmpstr
  else
    let tmpstr := snprintfWrite tmpstr0 OS_MAXSTR (loc :: ':' :: locmsg ++ ':' :: message)
    if queue < 0 then .ret (-1) else .send tmpstr

/-! ## Bridge lemmas: byte-wise comparison versus the standard orders -/

/-- The strict byte-wise comparison agrees with lexicographic order on
character lists. -/
theorem lexGtChars_iff_lex (as bs : List Char) :
    lexGtChars as bs = true ↔ List.Lex (· < ·) bs as := by
  induction as generalizing bs with
  | nil =>
    simp only [lexGtChars]
    constructor
    · intro h; exact absurd h (by simp)
    · intro h; cases h
  | cons a as ih =>
    cases bs with
    | nil =>
      simp only [lexGtChars]
      exact ⟨fun _ => List.Lex.nil, fun _ => trivial⟩
    | cons b bs =>
      simp only [lexGtChars]
      by_cases h1 : b < a
      · simp only [h1, if_true, true_iff]
        exact List.Lex.rel h1
      · by_cases h2 : a < b
        · simp only [h1, h2, if_false, if_true, Bool.false_eq_true, false_iff]
          intro h
          cases h with
          | cons h' => exact absurd h2 (lt_irrefl a)
          | rel h' => exact absurd h' h1
        · have hab : a = b := le_antisymm (not_lt.mp h1) (not_lt.mp h2)
          subst hab
          simp only [h1, h2, if_false, ih bs]
          constructor
          · intro h; exact List.Lex.cons h
          · intro h
            cases h with
            | cons h' => exact h'
            | rel h' => exact absurd h' h1

/-- The helper's string comparison is exactly strict `<` on strings. -/
theorem strGreater_iff_lt (a b : String) : strGreater a b = true ↔ b < a := by
  rw [String.lt_iff_toList_lt]
  exact lexGtChars_iff_lex a.data b.data

/-! ## Claims about the string_greater helper -/

/-- C1: with target path `p` and a literal operand `b`, evaluating on an event
whose value at `p` is the string `a` succeeds iff `a` is strictly greater than
`b` in byte-wise lexicographic order, and fails when `a = b` or `a < b`. -/
theorem stringGreater_literal_strict (p : List String) (a b : String) (e : Value)
    (h : readPath e p = some (Value.vStr a)) :
    ((evalStringGreater p (Operand.literal b) e).success = true ↔ b < a)
    ∧ ((a = b ∨ a < b) → (evalStringGreater p (Operand.literal b) e).success = false) := by
  have hred : evalStringGreater p (Operand.literal b) e
      = if strGreater a b then { success := true, event := e, trace := none }
        else { success := false, event := e, trace := some "comparison failure" } := by
    simp only [evalStringGreater, h, resolveOperand]
  constructor
  · rw [hred]
    by_cases hg : strGreater a b = true
    · simp only [hg, if_true, true_iff]
      exact (strGreater_iff_lt a b).mp hg
    · simp only [hg, if_false, Bool.false_eq_true, false_iff]
      intro hba
      exact hg ((strGreater_iff_lt a b).mpr hba)
  · intro hab
    have hnba : ¬ b < a := by
      rcases hab with rfl | hlt
      · exact lt_irrefl _
      · exact lt_asymm hlt
    have hg : strGreater a b = false := by
      cases hsg : strGreater a b
      · rfl
      · exact absurd ((strGreater_iff_lt a b).mp hsg) hnba
    rw [hred, hg]
    simp

/-- Witness for C1 at the unit test's scenario: event
`{"field2check": "value2"}`, literal `"value1"`. -/
theorem stringGreater_literal_strict_witness :
    ((evalStringGreater ["field2check"] (Operand.literal "value1")
        (Value.vObj [("field2check", Value.vStr "value2")])).success = true ↔ "value1" < "value2")
    ∧ (("value2" = "value1" ∨ "value2" < "value1") →
        (evalStringGreater ["field2check"] (Operand.literal "value1")
          (Value.vObj [("field2check", Value.vStr "value2")])).success = false) :=
  stringGreater_literal_strict ["field2check"] "value2" "value1"
    (Value.vObj [("field2check", Value.vStr "value2")]) rfl

/-- C2: when the event holds the string `v` at the referenced path, the
Reference operand evaluates to the same success as the Literal operand `v`. -/
theorem stringGreater_ref_eq_literal (p fp : List String) (v : String) (e : Value)
    (h : readPath e fp = some (Value.vStr v)) :
    (evalStringGreater p (Operand.reference fp) e).success
      = (evalStringGreater p (Operand.literal v) e).success := by
  simp only [evalStringGreater, resolveOperand, h]

/-- Witness for C2 at the unit test's scenario: event
`{"field2check": "value1", "otherfield": "value2"}`, reference `$otherfield`. -/
theorem stringGreater_ref_eq_literal_witness :
    (evalStringGreater ["field2check"] (Operand.reference ["otherfield"])
        (Value.vObj [("field2check", Value.vStr "value1"), ("otherfield", Value.vStr "value2")])).success
      = (evalStringGreater ["field2check"] (Operand.literal "value2")
        (Value.vObj [("field2check", Value.vStr "value1"), ("otherfield", Value.vStr "value2")])).success :=
  stringGreater_ref_eq_literal ["field2check"] ["otherfield"] "value2"
    (Value.vObj [("field2check", Value.vStr "value1"), ("otherfield", Value.vStr "value2")]) rfl

/-- Congruence of evaluation: two events on which the target path reads the
same value, and on which the operand resolves to the same value (or, for both,
to some object), evaluate to the same success and trace. -/
theorem evalSG_congr (p : List String) (op : Operand) (e1 e2 : Value)
    (htgt : readPath e1 p = readPath e2 p)
    (hres : resolveOperand op e1 = resolveOperand op e2
      ∨ ∃ f1 f2, resolveOperand op e1 = some (Value.vObj f1)
          ∧ resolveOperand op e2 = some (Value.vObj f2)) :
    (evalStringGreater p op e1).success = (evalStringGreater p op e2).success
    ∧ (evalStringGreater p op e1).trace = (evalStringGreater p op e2).trace := by
  unfold evalStringGreater
  rw [htgt]
  cases hv : readPath e2 p with
  | none => exact ⟨rfl, rfl⟩
  | some v =>
    cases v with
    | vStr a =>
      rcases hres with hres | ⟨f1, f2, h1, h2⟩
      · rw [hres]
        cases hw : resolveOperand op e2 with
        | none => exact ⟨rfl, rfl⟩
        | some w =>
          cases w with
          | vStr b =>
            by_cases hg : strGreater a b = true <;> simp [hg]
          | vNull => exact ⟨rfl, rfl⟩
          | vBool b => exact ⟨rfl, rfl⟩
          | vNum n => exact ⟨rfl, rfl⟩
          | vObj f => exact ⟨rfl, rfl⟩
      · rw [h1, h2]; exact ⟨rfl, rfl⟩
    | vNull => exact ⟨rfl, rfl⟩
    | vBool b => exact ⟨rfl, rfl⟩
    | vNum n => exact ⟨rfl, rfl⟩
    | vObj f => exact ⟨rfl, rfl⟩

/-- C3: reading the multi-level target `/parentA/...` is unaffected by the
value stored under a sibling parent `parentB`: for two events (objects `l1`,
`l2`) agreeing on every top-level key other than `parentB`, a `string_greater`
term targeting under `parentA` whose operand does not reference under
`parentB` yields the same success and the same trace. -/
theorem stringGreater_path_isolation (parentA parentB : String) (rest : List String)
    (op : Operand) (l1 l2 : List (String × Value))
    (hne : parentA ≠ parentB)
    (hagree : ∀ k, k ≠ parentB → getKey l1 k = getKey l2 k)
    (hop : ∀ q, op = Operand.reference q → q.head? ≠ some parentB) :
    (evalStringGreater (parentA :: rest) op (Value.vObj l1)).success
      = (evalStringGreater (parentA :: rest) op (Value.vObj l2)).success
    ∧ (evalStringGreater (parentA :: rest) op (Value.vObj l1)).trace
      = (evalStringGreater (parentA :: rest) op (Value.vObj l2)).trace := by
  have hread : ∀ k r, k ≠ parentB →
      readPath (Value.vObj l1) (k :: r) = readPath (Value.vObj l2) (k :: r) := by
    intro k r hk
    simp only [readPath, hagree k hk]
  apply evalSG_congr
  · exact hread parentA rest hne
  · cases op with
    | literal s => exact Or.inl rfl
    | reference q =>
      cases q with
      | nil => exact Or.inr ⟨l1, l2, rfl, rfl⟩
      | cons qh qr =>
        refine Or.inl ?_
        have hq : qh ≠ parentB := fun hqh => hop (qh :: qr) rfl (by simp [hqh])
        exact hread qh qr hq

/-- Witness for C3: two events that differ only in the value under
`parentObjt_2` (an object in one, the number 10 in the other) evaluate the
term targeting `/parentObjt_1/field2check` identically. -/
theorem stringGreater_path_isolation_witness :
    (evalStringGreater ["parentObjt_1", "field2check"] (Operand.literal "value1")
        (Value.vObj [("parentObjt_1", Value.vObj [("field2check", Value.vStr "value2")]),
                     ("parentObjt_2", Value.vObj [("field2check", Value.vStr "value2")])])).success
      = (evalStringGreater ["parentObjt_1", "field2check"] (Operand.literal "value1")
        (Value.vObj [("parentObjt_1", Value.vObj [("field2check", Value.vStr "value2")]),
                     ("parentObjt_2", Value.vNum 10)])).success
    ∧ (evalStringGreater ["parentObjt_1", "field2check"] (Operand.literal "value1")
        (Value.vObj [("parentObjt_1", Value.vObj [("field2check", Value.vStr "value2")]),
                     ("parentObjt_2", Value.vObj [("field2check", Value.vStr "value2")])])).trace
      = (evalStringGreater ["parentObjt_1", "field2check"] (Operand.literal "value1")
        (Value.vObj [("parentObjt_1", Value.vObj [("field2check", Value.vStr "value2")]),
                     ("parentObjt_2", Value.vNum 10)])).trace :=
  stringGreater_path_isolation "parentObjt_1" "parentObjt_2" ["field2check"]
    (Operand.literal "value1")
    [("parentObjt_1", Value.vObj [("field2check", Value.vStr "value2")]),
     ("parentObjt_2", Value.vObj [("field2check", Value.vStr "value2")])]
    [("parentObjt_1", Value.vObj [("field2check", Value.vStr "value2")]),
     ("parentObjt_2", Value.vNum 10)]
    (by decide)
    (by
      intro k hk
      have h2 : ¬ ("parentObjt_2" = k) := fun h => hk h.symm
      by_cases h1 : ("parentObjt_1" = k) <;> simp [getKey, h1, h2])
    (fun q hq => Operand.noConfusion hq)

/-- C4: building the helper with a non-empty target path and one well-formed
argument never fails, even with the always-failing definitions provider
`FailDef`; moreover the build result does not depend on the provider at all
(so `get` is never consulted during construction). -/
theorem build_never_fails (targetField helperName arg : String) (path : List String) (op : Operand)
    (hp : parsePath targetField = some path) (hc : classify arg = Except.ok op) :
    opBuilderHelperStringGreaterThan targetField helperName [arg] FailDef
      = Except.ok { targetPath := path, operand := op, helperName := helperName }
    ∧ ∀ d : DefsProvider,
        opBuilderHelperStringGreaterThan targetField helperName [arg] d
          = opBuilderHelperStringGreaterThan targetField helperName [arg] FailDef := by
  constructor
  · simp only [opBuilderHelperStringGreaterThan, hp, hc]
  · intro d
    rfl

/-- Witness for C4 at the unit test `Builds`: target `/field`, argument
`"value1"`, provider `FailDef`. -/
theorem build_never_fails_witness :
    opBuilderHelperStringGreaterThan "/field" "string_greater" ["value1"] FailDef
      = Except.ok { targetPath := ["field"], operand := Operand.literal "value1",
                    helperName := "string_greater" }
    ∧ ∀ d : DefsProvider,
        opBuilderHelperStringGreaterThan "/field" "string_greater" ["value1"] d
          = opBuilderHelperStringGreaterThan "/field" "string_greater" ["value1"] FailDef :=
  build_never_fails "/field" "string_greater" "value1" ["field"] (Operand.literal "value1")
    rfl rfl

/-- C5: if the target path (or, for a Reference operand, the referenced path)
does not hold a string in the event — absent or of another type — evaluation
returns a failure Result carrying a trace; evaluation is a total function, so
no fatal error can be raised. -/
theorem stringGreater_data_error_nonfatal (p : List String) (op : Operand) (e : Value)
    (h : (∀ s, readPath e p ≠ some (Value.vStr s))
       ∨ ∃ q, op = Operand.reference q ∧ ∀ s, readPath e q ≠ some (Value.vStr s)) :
    (evalStringGreater p op e).success = false ∧ (evalStringGreater p op e).trace ≠ none := by
  unfold evalStringGreater
  cases hv : readPath e p with
  | none => exact ⟨rfl, by simp⟩
  | some v =>
    cases v with
    | vStr a =>
      rcases h with h | ⟨q, rfl, hq⟩
      · exact absurd hv (h a)
      · simp only [resolveOperand]
        cases hw : readPath e q with
        | none => exact ⟨rfl, by simp⟩
        | some w =>
          cases w with
          | vStr s => exact absurd hw (hq s)
          | vNull => exact ⟨rfl, by simp⟩
          | vBool b => exact ⟨rfl, by simp⟩
          | vNum n => exact ⟨rfl, by simp⟩
          | vObj f => exact ⟨rfl, by simp⟩
    | vNull => exact ⟨rfl, by simp⟩
    | vBool b => exact ⟨rfl, by simp⟩
    | vNum n => exact ⟨rfl, by simp⟩
    | vObj f => exact ⟨rfl, by simp⟩

/-- Witness for C5 at the unit test `Exec_greater_than_multilevel_false`:
the value at `/parentObjt_1/field2check` is the number 10, not a string. -/
theorem stringGreater_data_error_nonfatal_witness :
    (evalStringGreater ["parentObjt_1", "field2check"] (Operand.literal "value2")
        (Value.vObj [("parentObjt_1", Value.vObj [("field2check", Value.vNum 10)])])).success = false
    ∧ (evalStringGreater ["parentObjt_1", "field2check"] (Operand.literal "value2")
        (Value.vObj [("parentObjt_1", Value.vObj [("field2check", Value.vNum 10)])])).trace ≠ none :=
  stringGreater_data_error_nonfatal ["parentObjt_1", "field2check"] (Operand.literal "value2")
    (Value.vObj [("parentObjt_1", Value.vObj [("field2check", Value.vNum 10)])])
    (Or.inl (fun s hs => by simp [readPath, getKey] at hs))

/-- C6: operand classification is purely syntactic and total: any argument
`$` followed by non-empty text is a Reference holding the dot-split remainder,
any argument not starting with `$` is a Literal used verbatim, and the bare
sigil `$` is the build-time `InvalidReference` error. -/
theorem classify_syntactic (t u : String) (ht : t.data ≠ []) (hu : u.data.head? ≠ some '$') :
    classify (String.mk ('$' :: t.data))
      = Except.ok (Operand.reference ((splitSegs '.' t.data).map fun l => String.mk l))
    ∧ classify u = Except.ok (Operand.literal u)
    ∧ classify "$" = Except.error BuildError.invalidReference := by
  refine ⟨?_, ?_, rfl⟩
  · cases htd : t.data with
    | nil => exact absurd htd ht
    | cons c cs => rfl
  · unfold classify
    split
    · rename_i heq
      exact absurd (by rw [heq]; rfl) hu
    · rename_i rest heq
      exact absurd (by rw [heq]; rfl) hu
    · rfl

/-- Witness for C6 at the unit test's arguments `$otherfield`, `"value1"`
and the bare sigil. -/
theorem classify_syntactic_witness :
    classify (String.mk ('$' :: "otherfield".data))
      = Except.ok (Operand.reference ((splitSegs '.' "otherfield".data).map fun l => String.mk l))
    ∧ classify "value1" = Except.ok (Operand.literal "value1")
    ∧ classify "$" = Except.error BuildError.invalidReference :=
  classify_syntactic "otherfield" "value1" (by decide) (by decide)

/-- C7: evaluation never mutates the event — the Result carries the input
event unchanged — and, being a pure function of term and event (the embedding
reads and writes no other state), repeated evaluation yields the same
Result. -/
theorem stringGreater_no_mutation (p : List String) (op : Operand) (e : Value) :
    (evalStringGreater p op e).event = e
    ∧ evalStringGreater p op e = evalStringGreater p op e := by
  refine ⟨?_, rfl⟩
  unfold evalStringGreater
  cases readPath e p with
  | none => rfl
  | some v =>
    cases v with
    | vStr a =>
      cases resolveOperand op e with
      | none => rfl
      | some w =>
        cases w with
        | vStr b => by_cases hg : strGreater a b = true <;> simp [hg]
        | vNull => rfl
        | vBool b => rfl
        | vNum n => rfl
        | vObj f => rfl
    | vNull => rfl
    | vBool b => rfl
    | vNum n => rfl
    | vObj f => rfl

/-! ## Claims about SendMSG -/

/-- C8: with `loc = SECURE_MQ`, `SendMSG` returns 0 without attempting any
socket send when the second character of the message is not `:` (format
error), or when the text after the first two characters begins with
`keepalive`. -/
theorem SendMSG_secure_early (queue : Int) (message locmsg init : List Char)
    (h : cstrGet message 1 ≠ ':' ∨ (message.drop 2).take 9 = "keepalive".data) :
    SendMSG queue message locmsg SECURE_MQ init = SendAction.ret 0 := by
  unfold SendMSG
  rw [if_pos rfl]
  rcases h with h | h
  · rw [if_pos h]
  · by_cases h1 : cstrGet message 1 = ':'
    · rw [if_neg (fun hne => hne h1), if_pos h]
    · rw [if_pos h1]

/-- Witness for C8: the two-character message `xy` has no `:` in second
position, so the secure path returns 0 without sending. -/
theorem SendMSG_secure_early_witness :
    SendMSG 0 ['x', 'y'] [] SECURE_MQ [] = SendAction.ret 0 :=
  SendMSG_secure_early 0 ['x', 'y'] [] [] (Or.inl (by decide))

/-- C9: when `queue < 0` and no SECURE_MQ early return fires, `SendMSG`
returns -1 without attempting any send on the socket. -/
theorem SendMSG_queue_negative (queue : Int) (message locmsg init : List Char) (loc : Char)
    (hq : queue < 0)
    (hsec : loc = SECURE_MQ →
      cstrGet message 1 = ':' ∧ (message.drop 2).take 9 ≠ "keepalive".data) :
    SendMSG queue message locmsg loc init = SendAction.ret (-1) := by
  unfold SendMSG
  by_cases hl : loc = SECURE_MQ
  · obtain ⟨h1, h2⟩ := hsec hl
    rw [if_pos hl, if_neg (fun hne => hne h1), if_neg h2, if_pos hq]
  · rw [if_neg hl, if_pos hq]

/-- Witness for C9: a non-secure location with `queue = -1` returns -1. -/
theorem SendMSG_queue_negative_witness :
    SendMSG (-1) ['a'] ['b'] 'q' [] = SendAction.ret (-1) :=
  SendMSG_queue_negative (-1) ['a'] ['b'] [] 'q' (by decide) (by decide)

/-- The prefix of a list read up to a character on which `p` is false is no
longer than the part before that character. -/
theorem takeWhile_append_cons_le (p : Char → Bool) (w r : List Char) (c : Char)
    (hc : p c = false) :
    ((w ++ c :: r).takeWhile p).length ≤ w.length := by
  induction w with
  | nil => simp [List.takeWhile_cons, hc]
  | cons x xs ih =>
    rw [List.cons_append, List.takeWhile_cons]
    cases hx : p x
    · simp
    · simpa using Nat.succ_le_succ ih

/-- `snprintf` into a buffer at least `size` long leaves the length
unchanged. -/
theorem snprintfWrite_length (b : List Char) (size : Nat) (s : List Char)
    (hb : size ≤ b.length) (h1 : 1 ≤ size) :
    (snprintfWrite b size s).length = b.length := by
  unfold snprintfWrite
  simp only [List.length_append, List.length_cons, List.length_drop, List.length_take]
  omega

/-- `snprintf` always leaves a NUL terminator in the buffer. -/
theorem snprintfWrite_nul_mem (b : List Char) (size : Nat) (s : List Char) :
    NUL ∈ snprintfWrite b size s := by
  unfold snprintfWrite
  exact List.mem_append_right _ (List.mem_cons_self _ _)

/-- The NUL-terminated content written by `snprintf` holds at most `size - 1`
characters. -/
theorem snprintfWrite_payload_le (b : List Char) (size : Nat) (s : List Char) :
    ((snprintfWrite b size s).takeWhile (fun c => c != NUL)).length ≤ size - 1 := by
  unfold snprintfWrite
  refine le_trans (takeWhile_append_cons_le _ _ _ _ (by simp)) ?_
  simp only [List.length_take]
  omega

/-- C10: whatever buffer `SendMSG` hands to `OS_SendUnix` is exactly
`OS_MAXSTR + 1` characters long (never overrun), contains a NUL terminator,
and its NUL-terminated content is at most `OS_MAXSTR - 1` characters: the
formatted string is truncated by `snprintf` and position `OS_MAXSTR` was
pre-set to NUL. -/
theorem SendMSG_buffer_nul_safe (queue : Int) (message locmsg init : List Char) (loc : Char)
    (hlen : init.length = OS_MAXSTR + 1) (buf : List Char)
    (hsend : SendMSG queue message locmsg loc init = SendAction.send buf) :
    buf.length = OS_MAXSTR + 1 ∧ NUL ∈ buf
    ∧ (buf.takeWhile (fun c => c != NUL)).length ≤ OS_MAXSTR - 1 := by
  have hset : (init.set OS_MAXSTR NUL).length = OS_MAXSTR + 1 := by
    rw [List.length_set]; exact hlen
  have main : ∀ s : List Char,
      buf = snprintfWrite (init.set OS_MAXSTR NUL) OS_MAXSTR s →
      buf.length = OS_MAXSTR + 1 ∧ NUL ∈ buf
      ∧ (buf.takeWhile (fun c => c != NUL)).length ≤ OS_MAXSTR - 1 := by
    intro s hbuf
    subst hbuf
    refine ⟨?_, snprintfWrite_nul_mem _ _ _, snprintfWrite_payload_le _ _ _⟩
    rw [snprintfWrite_length _ _ _ (by rw [hset]; omega) (by decide), hset]
  unfold SendMSG at hsend
  by_cases hl : loc = SECURE_MQ
  · rw [if_pos hl] at hsend
    by_cases h1 : cstrGet message 1 ≠ ':'
    · rw [if_pos h1] at hsend
      exact SendAction.noConfusion hsend
    · rw [if_neg h1] at hsend
      by_cases h2 : (message.drop 2).take 9 = "keepalive".data
      · rw [if_pos h2] at hsend
        exact SendAction.noConfusion hsend
      · rw [if_neg h2] at hsend
        by_cases hq : queue < 0
        · rw [if_pos hq] at hsend
          exact SendAction.noConfusion hsend
        · rw [if_neg hq] at hsend
          injection hsend with hbuf
          exact main _ hbuf.symm
  · rw [if_neg hl] at hsend
    by_cases hq : queue < 0
    · rw [if_pos hq] at hsend
      exact SendAction.noConfusion hsend
    · rw [if_neg hq] at hsend
      injection hsend with hbuf
      exact main _ hbuf.symm

/-- Witness for C10: a concrete non-secure send with a fresh buffer of
`OS_MAXSTR + 1` characters. -/
theorem SendMSG_buffer_nul_safe_witness :
    (snprintfWrite ((List.replicate (OS_MAXSTR + 1) 'A').set OS_MAXSTR NUL) OS_MAXSTR
        ('q' :: ':' :: ['b'] ++ ':' :: ['a'])).length = OS_MAXSTR + 1
    ∧ NUL ∈ snprintfWrite ((List.replicate (OS_MAXSTR + 1) 'A').set OS_MAXSTR NUL) OS_MAXSTR
        ('q' :: ':' :: ['b'] ++ ':' :: ['a'])
    ∧ ((snprintfWrite ((List.replicate (OS_MAXSTR + 1) 'A').set OS_MAXSTR NUL) OS_MAXSTR
        ('q' :: ':' :: ['b'] ++ ':' :: ['a'])).takeWhile (fun c => c != NUL)).length
      ≤ OS_MAXSTR - 1 :=
  SendMSG_buffer_nul_safe 0 ['a'] ['b'] (List.replicate (OS_MAXSTR + 1) 'A') 'q'
    (by simp)
    (snprintfWrite ((List.replicate (OS_MAXSTR + 1) 'A').set OS_MAXSTR NUL) OS_MAXSTR
      ('q' :: ':' :: ['b'] ++ ':' :: ['a']))
    rfl
